import Mathlib

/-!
Verification of the URL-shortener web service (main.go and the variant
source file part_000). The datastore table is modelled as a list of rows,
the handlers are translated from the Go source with datastore faults
injected as explicit boolean parameters, and the random short-code
generator output is an explicit string parameter. Go standard-library
behaviour exercised by the handlers (net/url parsing and serialisation,
strings.TrimPrefix, net/http response writing) is modelled as well;
percent-escaping, userinfo and host validation inside net/url are outside
the fragment the claims touch and are not modelled.
-/

namespace Shorter

/-- Model of Go split(s, sep, cutc=true) on a single character, list level:
the part strictly before the first occurrence and the part strictly after. -/
def cutCharList : List Char → Char → Option (List Char × List Char)
  | [], _ => none
  | x :: xs, c =>
    if x = c then some ([], xs)
    else
      match cutCharList xs c with
      | none => none
      | some (a, b) => some (x :: a, b)

/-- Go split(s, c, cutc=true): before the first occurrence of c and after it;
when c is absent, the whole string and the empty string. -/
def cutChar (s : String) (c : Char) : String × String :=
  match cutCharList s.data c with
  | none => (s, "")
  | some (a, b) => (⟨a⟩, ⟨b⟩)

/-- List level split that keeps the separator with the right part. -/
def cutKeepList : List Char → Char → Option (List Char × List Char)
  | [], _ => none
  | x :: xs, c =>
    if x = c then some ([], x :: xs)
    else
      match cutKeepList xs c with
      | none => none
      | some (a, b) => some (x :: a, b)

/-- Go authority split in net/url parse: authority[:i] and authority[i:] at the
first slash, the slash staying with the remainder; (s, "") when no slash. -/
def cutSlashKeep (s : String) : String × String :=
  match cutKeepList s.data '/' with
  | none => (s, "")
  | some (a, b) => (⟨a⟩, ⟨b⟩)

def containsChar (s : String) (c : Char) : Bool :=
  s.data.contains c

/-- Go strings.HasPrefix. -/
def strHasPfx (s pre : String) : Bool :=
  pre.data.isPrefixOf s.data

/-- Go strings.HasSuffix for the one-character suffix "?". -/
def endsWithQmark (s : String) : Bool :=
  s.data.getLast? == some '?'

/-- Drop the final character: Go rest[:len(rest)-1]. -/
def dropLast1 (s : String) : String :=
  ⟨s.data.dropLast⟩

/-- Go net/url stringContainsCTLByte: any byte below 0x20 or equal to 0x7f.
Multi-byte UTF-8 sequences only contain bytes at or above 0x80, so the check
coincides with a character-level check. -/
def containsCTL (s : String) : Bool :=
  s.data.any (fun c => decide (c.toNat < 32) || decide (c.toNat = 127))

/-- Go net/url getScheme: scans for letters, then digits and +-. after the
first position, up to a colon. Returns none for the missing-protocol-scheme
error (colon at position zero); otherwise the scheme (possibly empty, with
the rest the whole input when the input is not scheme-shaped) and the rest. -/
def getSchemeAux (orig : String) : List Char → List Char → Option (String × String)
  | [], _ => some ("", orig)
  | c :: rest, acc =>
    if c.isAlpha then getSchemeAux orig rest (acc ++ [c])
    else if c.isDigit || c == '+' || c == '-' || c == '.' then
      if acc.isEmpty then some ("", orig) else getSchemeAux orig rest (acc ++ [c])
    else if c == ':' then
      if acc.isEmpty then none else some (⟨acc⟩, ⟨rest⟩)
    else some ("", orig)

def getScheme (s : String) : Option (String × String) :=
  getSchemeAux s s.data []

/-- Go strings.ToLower restricted to ASCII. Exact for every string getScheme
can produce, since schemes consist of ASCII letters, digits and +-. only. -/
def lowerChar (c : Char) : Char :=
  if 'A' ≤ c ∧ c ≤ 'Z' then Char.ofNat (c.toNat + 32) else c

def strToLower (s : String) : String :=
  ⟨s.data.map lowerChar⟩

/-- The fields of Go net/url URL that this program exercises (User and the
escaped raw fields are not modelled). -/
structure GoURL where
  scheme : String
  opq : String
  host : String
  omitHost : Bool
  path : String
  forceQuery : Bool
  rawQuery : String
  fragment : String
deriving Repr, DecidableEq

/-- The query split of Go net/url parse: a lone trailing question mark sets
ForceQuery with an empty RawQuery, otherwise the string is cut at the first
question mark. Returns (rest, forceQuery, rawQuery). -/
def splitQuery (rest : String) : String × Bool × String :=
  if endsWithQmark rest && !(containsChar (dropLast1 rest) '?') then
    (dropLast1 rest, true, "")
  else
    let p := cutChar rest '?'
    (p.1, false, p.2)

/-- Go net/url parse(rawURL, viaRequest=false) restricted to the modelled
fragment: control-byte rejection, the "*" case, scheme extraction with
lowercasing, the query split, opaque rootless URLs, the colon check on the
first path segment of schemeless URLs, and authority extraction. Userinfo,
host validation and percent-unescaping of the path are not modelled (the
path and host are taken verbatim). none is a parse error. -/
def parseNoFrag (rawURL : String) : Option GoURL :=
  if containsCTL rawURL then none
  else if rawURL = "*" then
    some { scheme := "", opq := "", host := "", omitHost := false, path := "*",
           forceQuery := false, rawQuery := "", fragment := "" }
  else
    match getScheme rawURL with
    | none => none
    | some (scheme0, rest0) =>
      let scheme := strToLower scheme0
      let q := splitQuery rest0
      let rest1 := q.1
      let forceQuery := q.2.1
      let rawQuery := q.2.2
      if ¬ (strHasPfx rest1 "/" = true) then
        if scheme ≠ "" then
          some { scheme := scheme, opq := rest1, host := "", omitHost := false,
                 path := "", forceQuery := forceQuery, rawQuery := rawQuery, fragment := "" }
        else if containsChar (cutChar rest1 '/').1 ':' then none
        else
          some { scheme := "", opq := "", host := "", omitHost := false, path := rest1,
                 forceQuery := forceQuery, rawQuery := rawQuery, fragment := "" }
      else if (scheme ≠ "" ∨ ¬ (strHasPfx rest1 "///" = true)) ∧ strHasPfx rest1 "//" = true then
        let auth0 : String := ⟨rest1.data.drop 2⟩
        let p := cutSlashKeep auth0
        some { scheme := scheme, opq := "", host := p.1, omitHost := false, path := p.2,
               forceQuery := forceQuery, rawQuery := rawQuery, fragment := "" }
      else
        some { scheme := scheme, opq := "", host := "", omitHost := scheme != "",
               path := rest1, forceQuery := forceQuery, rawQuery := rawQuery, fragment := "" }

/-- Go net/url Parse: cut the fragment at the first hash, parse the rest,
then attach the fragment verbatim (escape handling not modelled). -/
def parseURL (rawURL : String) : Option GoURL :=
  let p := cutChar rawURL '#'
  match parseNoFrag p.1 with
  | none => none
  | some u => some { u with fragment := p.2 }

/-- Go net/url URL.String restricted to the modelled fragment (no User, no
escaping): scheme colon, opaque or double-slash host plus path with the
relative-path guard, then query when forced or nonempty, then fragment. -/
def GoURL.toString (u : GoURL) : String :=
  let schemePart := if u.scheme ≠ "" then u.scheme ++ ":" else ""
  let mainPart :=
    if u.opq ≠ "" then u.opq
    else
      let hostPart :=
        if u.scheme ≠ "" ∨ u.host ≠ "" then
          if u.omitHost = true ∧ u.host = "" then ""
          else (if u.host ≠ "" ∨ u.path ≠ "" then "//" else "") ++ u.host
        else ""
      let sep := if u.path ≠ "" ∧ ¬ (strHasPfx u.path "/" = true) ∧ u.host ≠ "" then "/" else ""
      let dotSlash :=
        if schemePart = "" ∧ hostPart = "" ∧ sep = "" ∧ containsChar (cutChar u.path '/').1 ':' = true
        then "./" else ""
      hostPart ++ sep ++ dotSlash ++ u.path
  schemePart ++ mainPart ++
    (if u.forceQuery = true ∨ u.rawQuery ≠ "" then "?" ++ u.rawQuery else "") ++
    (if u.fragment ≠ "" then "#" ++ u.fragment else "")

/-- removeQueryParams from the source: parse, clear RawQuery, reserialise;
the input is returned unchanged when parsing fails. -/
def removeQueryParams (urlStr : String) : String :=
  match parseURL urlStr with
  | none => urlStr
  | some parsedURL => GoURL.toString { parsedURL with rawQuery := "" }

/-- The outcome of the header-only probe request issued by getFinalURL:
the response status and the raw Location header when present. -/
structure ProbeResp where
  statusCode : Nat
  locationHeader : Option String
deriving Repr, DecidableEq

/-- isRedirect from the source: statusCode >= 300 && statusCode <= 399. -/
def isRedirect (statusCode : Nat) : Bool :=
  decide (300 ≤ statusCode) && decide (statusCode ≤ 399)

/-- Go resp.Location: an error when the header is absent (http.ErrNoLocation)
or when it fails to parse. Resolution of a relative Location against the
request URL is not modelled; the header is parsed as an absolute URL. -/
def respLocation (r : ProbeResp) : Except Unit GoURL :=
  match r.locationHeader with
  | none => Except.error ()
  | some l =>
    match parseURL l with
    | none => Except.error ()
    | some u => Except.ok u

/-- getFinalURL from the source, with the network probe outcome passed
explicitly (Except.error models a failed probe request). The client is built
with redirect-following disabled, so exactly one probe is consulted and at
most one redirect hop is resolved: a redirect status yields the serialised
parsed Location header, any other status yields the input unchanged. -/
def getFinalURL (urlStr : String) (probe : Except Unit ProbeResp) : Except Unit String :=
  match probe with
  | Except.error _ => Except.error ()
  | Except.ok resp =>
    if isRedirect resp.statusCode then
      match respLocation resp with
      | Except.error _ => Except.error ()
      | Except.ok locationURL => Except.ok locationURL.toString
    else Except.ok urlStr

/-- One row of the short_urls table. The auto-increment surrogate id is not
modelled: no handler behaviour depends on it. -/
structure Row where
  shortCode : String
  longUrl : String
deriving Repr, DecidableEq

abbrev Table := List Row

/-- SELECT ... WHERE short_code = code, scanning the first matching row. -/
def findByCode (t : Table) (code : String) : Option Row :=
  t.find? (fun r => r.shortCode == code)

/-- SELECT short_code WHERE long_url = url, scanning the first matching row. -/
def findByURL (t : Table) (url : String) : Option Row :=
  t.find? (fun r => r.longUrl == url)

/-- INSERT INTO short_urls under the UNIQUE(short_code) constraint: a
duplicate code is a constraint-violation error, otherwise the row is added. -/
def insertRow (t : Table) (code url : String) : Option Table :=
  if t.any (fun r => r.shortCode == code) then none
  else some (t ++ [{ shortCode := code, longUrl := url }])

/-- DELETE FROM short_urls WHERE short_code = code: removes every matching
row, a no-op when the code is absent. -/
def deleteByCode (t : Table) (code : String) : Table :=
  t.filter (fun r => !(r.shortCode == code))

/-- The observable part of an HTTP response: status, body text, and the
Location header for redirects. The HTML hyperlink body net/http writes for
GET redirects is not modelled (body empty there). -/
structure Response where
  status : Nat
  body : String
  location : Option String
deriving Repr, DecidableEq

/-- net/http NotFound helper. -/
def httpNotFound : Response :=
  { status := 404, body := "404 page not found\n", location := none }

/-- net/http Error helper: the message plus a newline. -/
def httpError (msg : String) (code : Nat) : Response :=
  { status := code, body := msg ++ "\n", location := none }

/-- Go strings.TrimPrefix. -/
def trimPfx (s pre : String) : String :=
  if pre.data.isPrefixOf s.data then ⟨s.data.drop pre.data.length⟩ else s

/-- handleShortURL from the source. dbFault injects a datastore error on the
lookup (the Go code folds it into the same err as the no-rows condition). -/
def handleShortURL (t : Table) (path : String) (dbFault : Bool) : Response :=
  let shortCode := trimPfx path "/"
  if shortCode = "" then httpNotFound
  else if dbFault then httpNotFound
  else
    match findByCode t shortCode with
    | none => httpNotFound
    | some shortURL => { status := 301, body := "", location := some shortURL.longUrl }

/-- handleCreateShortURL from main.go. The resolve parameter is the outcome
of the getFinalURL call, gen the shortid output, and the two fault flags
inject datastore errors on the dedup lookup and the insert. Returns the
response and the table after the request. -/
def handleCreateShortURL (dom : String) (t : Table) (longURL : String)
    (resolve : Except Unit String) (gen : String) (lookupFault insertFault : Bool) :
    Response × Table :=
  if longURL = "" then (httpError "Missing long_url parameter" 400, t)
  else
    match resolve with
    | Except.error _ => (httpError "Failed to resolve redirection" 500, t)
    | Except.ok finalURL =>
      let cleanURL := removeQueryParams finalURL
      let shortCode := gen
      if lookupFault then (httpError "Failed to check for existing short URL" 500, t)
      else
        match findByURL t cleanURL with
        | some r =>
          ({ status := 200, body := "Short URL already exists: " ++ (dom ++ r.shortCode) ++ "\n",
             location := none }, t)
        | none =>
          if insertFault then (httpError "Failed to create short URL" 500, t)
          else
            match insertRow t shortCode cleanURL with
            | none => (httpError "Failed to create short URL" 500, t)
            | some t2 =>
              ({ status := 200, body := "Short URL created: " ++ (dom ++ shortCode) ++ "\n",
                 location := none }, t2)

/-- handleCreateShortURL from the part_000 variant: identical control flow,
JSON bodies, and the short URL built as domain, slash, code. -/
def handleCreateShortURLv2 (dom : String) (t : Table) (longURL : String)
    (resolve : Except Unit String) (gen : String) (lookupFault insertFault : Bool) :
    Response × Table :=
  if longURL = "" then (httpError "\x7b\"error\": \"Missing long_url parameter\"\x7d" 400, t)
  else
    match resolve with
    | Except.error _ => (httpError "\x7b\"error\": \"Failed to resolve redirection\"\x7d" 500, t)
    | Except.ok finalURL =>
      let cleanURL := removeQueryParams finalURL
      let shortCode := gen
      if lookupFault then
        (httpError "\x7b\"error\": \"Failed to check for existing short URL\"\x7d" 500, t)
      else
        match findByURL t cleanURL with
        | some r =>
          ({ status := 200, body := "\x7b\"short_url\": \"" ++ (dom ++ "/" ++ r.shortCode) ++ "\"\x7d",
             location := none }, t)
        | none =>
          if insertFault then (httpError "\x7b\"error\": \"Failed to create short URL\"\x7d" 500, t)
          else
            match insertRow t shortCode cleanURL with
            | none => (httpError "\x7b\"error\": \"Failed to create short URL\"\x7d" 500, t)
            | some t2 =>
              ({ status := 200, body := "\x7b\"short_url\": \"" ++ (dom ++ "/" ++ shortCode) ++ "\"\x7d",
                 location := none }, t2)

/-- handleDeleteShortURL from the source (identical in both variants).
dbFault injects a datastore error on the delete statement. -/
def handleDeleteShortURL (dom key : String) (t : Table) (path : String)
    (authHeader : String) (dbFault : Bool) : Response × Table :=
  let shortCode := trimPfx path "/api/delete/"
  if authHeader ≠ key then (httpError "Unauthorized" 401, t)
  else if shortCode = "" then (httpNotFound, t)
  else if dbFault then (httpError "Failed to delete short URL" 500, t)
  else
    ({ status := 200, body := "Short URL deleted: " ++ (dom ++ shortCode) ++ "\n",
       location := none }, deleteByCode t shortCode)

/-- The short code a successful create request responds with: the stored
code when the canonical URL is already present, the freshly generated one
otherwise. Mirrors the branch structure of handleCreateShortURL. -/
def createdCode (t : Table) (finalURL : String) (gen : String) : String :=
  match findByURL t (removeQueryParams finalURL) with
  | some r => r.shortCode
  | none => gen

/-- One sequential request against the service, with its nondeterministic
inputs (resolution outcome, generated code, injected faults) made explicit. -/
inductive Op where
  | create (longURL : String) (resolve : Except Unit String) (gen : String)
      (lookupFault insertFault : Bool)
  | redirect (path : String) (dbFault : Bool)
  | del (path : String) (auth : String) (dbFault : Bool)

/-- The table after one request. The redirect handler never writes. -/
def applyOp (dom key : String) (t : Table) : Op → Table
  | Op.create longURL resolve gen lf insf =>
    (handleCreateShortURL dom t longURL resolve gen lf insf).2
  | Op.redirect _ _ => t
  | Op.del path auth fault => (handleDeleteShortURL dom key t path auth fault).2

/-- The table reached from the empty table by a sequence of requests. -/
def execOps (dom key : String) (ops : List Op) : Table :=
  ops.foldl (applyOp dom key) []

/-- Two parsed URLs that agree on every component except the query string. -/
def sameButQuery (u2 u : GoURL) : Prop :=
  u2.scheme = u.scheme ∧ u2.opq = u.opq ∧ u2.host = u.host ∧ u2.omitHost = u.omitHost ∧
  u2.path = u.path ∧ u2.forceQuery = u.forceQuery ∧ u2.fragment = u.fragment

/-- The long_url column never repeats: the deduplication invariant. -/
def urlsNodup (t : Table) : Prop :=
  (t.map (fun r => r.longUrl)).Nodup

/-! ### Supporting lemmas -/

theorem insertRow_some {t : Table} {c u : String} {t2 : Table}
    (h : insertRow t c u = some t2) :
    t.any (fun r => r.shortCode == c) = false ∧
      t2 = t ++ [{ shortCode := c, longUrl := u }] := by
  unfold insertRow at h
  split at h
  · cases h
  next hany =>
    refine ⟨by simpa using hany, ?_⟩
    injection h with h
    exact h.symm

theorem findByURL_none {t : Table} {u : String} (h : findByURL t u = none) :
    ∀ r ∈ t, r.longUrl ≠ u := by
  intro r hr
  have := List.find?_eq_none.mp h r hr
  simpa using this

theorem findByCode_none {t : Table} {c : String} (h : findByCode t c = none) :
    ∀ r ∈ t, r.shortCode ≠ c := by
  intro r hr
  have := List.find?_eq_none.mp h r hr
  simpa using this

theorem clearQuery_eq_of_sameButQuery {u2 u : GoURL} (h : sameButQuery u2 u) :
    ({ u2 with rawQuery := "" } : GoURL) = { u with rawQuery := "" } := by
  obtain ⟨h1, h2, h3, h4, h5, h6, h7⟩ := h
  cases u2; cases u
  simp_all

theorem trimPfx_slash (c : String) : trimPfx ("/" ++ c) "/" = c := by
  have hd : ("/" ++ c).data = '/' :: c.data := by simp
  simp only [trimPfx, hd]
  rw [if_pos (by simp [List.isPrefixOf])]
  rfl

/-- Characterisation of the main.go create handler on a nonempty long_url,
a successful resolution, and no injected faults. -/
theorem create_eq (dom : String) (t : Table) (longURL finalURL gen : String)
    (hl : longURL ≠ "") :
    handleCreateShortURL dom t longURL (Except.ok finalURL) gen false false =
      (match findByURL t (removeQueryParams finalURL) with
       | some r =>
         ({ status := 200, body := "Short URL already exists: " ++ (dom ++ r.shortCode) ++ "\n",
            location := none }, t)
       | none =>
         match insertRow t gen (removeQueryParams finalURL) with
         | none => (httpError "Failed to create short URL" 500, t)
         | some t2 =>
           ({ status := 200, body := "Short URL created: " ++ (dom ++ gen) ++ "\n",
              location := none }, t2)) := by
  unfold handleCreateShortURL
  rw [if_neg hl]
  rfl

/-- Characterisation of the part_000 create handler under the same inputs. -/
theorem create2_eq (dom : String) (t : Table) (longURL finalURL gen : String)
    (hl : longURL ≠ "") :
    handleCreateShortURLv2 dom t longURL (Except.ok finalURL) gen false false =
      (match findByURL t (removeQueryParams finalURL) with
       | some r =>
         ({ status := 200, body := "\x7b\"short_url\": \"" ++ (dom ++ "/" ++ r.shortCode) ++ "\"\x7d",
            location := none }, t)
       | none =>
         match insertRow t gen (removeQueryParams finalURL) with
         | none => (httpError "\x7b\"error\": \"Failed to create short URL\"\x7d" 500, t)
         | some t2 =>
           ({ status := 200, body := "\x7b\"short_url\": \"" ++ (dom ++ "/" ++ gen) ++ "\"\x7d",
              location := none }, t2)) := by
  unfold handleCreateShortURLv2
  rw [if_neg hl]
  rfl

/-- The create handler either leaves the table alone or appends one fresh row
whose canonical URL was not present before. -/
theorem create_snd (dom : String) (t : Table) (longURL : String)
    (resolve : Except Unit String) (gen : String) (lf insf : Bool) :
    (handleCreateShortURL dom t longURL resolve gen lf insf).2 = t ∨
    ∃ url, findByURL t url = none ∧
      (handleCreateShortURL dom t longURL resolve gen lf insf).2 =
        t ++ [{ shortCode := gen, longUrl := url }] := by
  unfold handleCreateShortURL
  dsimp only
  repeat' split
  all_goals try (left; rfl)
  right
  refine ⟨_, ?_, (insertRow_some (by assumption)).2⟩
  assumption

/-- The delete handler either leaves the table alone or removes the rows with
the code extracted from the path. -/
theorem delete_snd (dom key : String) (t : Table) (path auth : String) (fault : Bool) :
    (handleDeleteShortURL dom key t path auth fault).2 = t ∨
    (handleDeleteShortURL dom key t path auth fault).2 =
      deleteByCode t (trimPfx path "/api/delete/") := by
  unfold handleDeleteShortURL
  dsimp only
  repeat' split
  all_goals try (left; rfl)
  right; rfl

theorem filter_len_le_one {t : Table} {f : Row → String} (h : (t.map f).Nodup) (v : String) :
    (t.filter (fun r => f r == v)).length ≤ 1 := by
  induction t with
  | nil => simp
  | cons a l ih =>
    simp only [List.map_cons, List.nodup_cons] at h
    by_cases hv : f a = v
    · have hrest : l.filter (fun r => f r == v) = [] := by
        rw [List.filter_eq_nil_iff]
        intro x hx
        simp only [beq_iff_eq]
        intro hfx
        exact h.1 (by rw [hv, ← hfx]; exact List.mem_map_of_mem f hx)
      simp [List.filter_cons, hv, hrest]
    · simpa [List.filter_cons, hv] using ih h.2

theorem filter_len_one_of_mem {t : Table} {f : Row → String} {r : Row} {v : String}
    (hle : (t.filter (fun x => f x == v)).length ≤ 1) (hr : r ∈ t) (hv : f r = v) :
    (t.filter (fun x => f x == v)).length = 1 := by
  have hmem : r ∈ t.filter (fun x => f x == v) := List.mem_filter.mpr ⟨hr, by simp [hv]⟩
  have := List.length_pos.mpr (List.ne_nil_of_mem hmem)
  omega

theorem length_filter_not_add (p : Row → Bool) (t : Table) :
    (t.filter (fun r => !(p r))).length + (t.filter p).length = t.length := by
  induction t with
  | nil => rfl
  | cons a l ih =>
    cases hp : p a <;> simp [List.filter_cons, hp] <;> omega

theorem urlsNodup_applyOp (dom key : String) (t : Table) (op : Op) (h : urlsNodup t) :
    urlsNodup (applyOp dom key t op) := by
  cases op with
  | redirect p f => exact h
  | del p a f =>
    show urlsNodup (handleDeleteShortURL dom key t p a f).2
    rcases delete_snd dom key t p a f with h2 | h2
    · rw [h2]; exact h
    · rw [h2]
      exact List.Nodup.sublist ((List.filter_sublist t).map _) h
  | create l res g lf insf =>
    show urlsNodup (handleCreateShortURL dom t l res g lf insf).2
    rcases create_snd dom t l res g lf insf with h2 | ⟨url, hfind, h2⟩
    · rw [h2]; exact h
    · rw [h2]
      unfold urlsNodup at h ⊢
      rw [List.map_append]
      refine List.nodup_append.mpr ⟨h, List.nodup_singleton _, ?_⟩
      intro a ha hb
      simp only [List.map_cons, List.map_nil, List.mem_singleton] at hb
      rcases List.mem_map.mp ha with ⟨r, hr, hre⟩
      exact findByURL_none hfind r hr (by rw [hre, hb])

theorem urlsNodup_exec (dom key : String) (ops : List Op) :
    urlsNodup (execOps dom key ops) := by
  unfold execOps
  have hgen : ∀ (l : List Op) (t : Table), urlsNodup t →
      urlsNodup (l.foldl (applyOp dom key) t) := by
    intro l
    induction l with
    | nil => intro t h; exact h
    | cons op rest ih => intro t h; exact ih _ (urlsNodup_applyOp dom key t op h)
  exact hgen ops [] (by simp [urlsNodup])

/-! ### Claim theorems -/

/-- C3: starting from the empty table, every state reachable by any
sequential interleaving of create, redirect and delete requests holds at
most one row per canonical longURL: the create handler reuses the existing
shortCode of a row with the same canonical longURL instead of inserting a
duplicate, and the other operations never add rows. -/
theorem longURL_unique_invariant (dom key : String) (ops : List Op) (url : String) :
    ((execOps dom key ops).filter (fun r => r.longUrl == url)).length ≤ 1 :=
  filter_len_le_one (f := fun r => r.longUrl) (urlsNodup_exec dom key ops) url

/-- C8: a delete request whose Authorization header is not exactly the
configured admin key is answered 401 with the table unchanged, for every
path (so also when the code segment of the path is empty, since the key
check precedes the empty-code check) and every injected fault. -/
theorem delete_unauthorized (dom key : String) (t : Table) (path auth : String)
    (fault : Bool) (h : auth ≠ key) :
    handleDeleteShortURL dom key t path auth fault = (httpError "Unauthorized" 401, t) := by
  unfold handleDeleteShortURL
  rw [if_pos h]

/-- Witness for C8: an unauthorized delete with an empty code segment is
still answered 401 and removes nothing. -/
theorem delete_unauthorized_witness :
    ("bad" : String) ≠ "k" ∧
    handleDeleteShortURL "d" "k" [{ shortCode := "abc", longUrl := "http://t/" }]
        "/api/delete/" "bad" false =
      (httpError "Unauthorized" 401, [{ shortCode := "abc", longUrl := "http://t/" }]) :=
  ⟨by decide,
   delete_unauthorized "d" "k" [{ shortCode := "abc", longUrl := "http://t/" }]
     "/api/delete/" "bad" false (by decide)⟩

/-- C5 counterexample: the redirect endpoint answers a failing lookup with
404, not 500, even when the failure is a genuine datastore error rather
than the no-rows condition (the row is even present here). -/
theorem redirect_db_error_cex :
    handleShortURL [{ shortCode := "abc", longUrl := "http://t/" }] "/abc" true = httpNotFound ∧
    (handleShortURL [{ shortCode := "abc", longUrl := "http://t/" }] "/abc" true).status = 404 ∧
    ¬ (handleShortURL [{ shortCode := "abc", longUrl := "http://t/" }] "/abc" true).status = 500 :=
  ⟨rfl, rfl, by decide⟩

/-- C5 amended: the create and delete endpoints answer any injected
datastore error other than the no-rows condition with 500, but the redirect
endpoint folds every lookup error into the same branch as the unknown-code
case and answers 404. -/
theorem persistence_error_taxonomy :
    (∀ (t : Table) (path : String), handleShortURL t path true = httpNotFound) ∧
    (∀ (dom : String) (t : Table) (longURL finalURL gen : String), longURL ≠ "" →
      (handleCreateShortURL dom t longURL (Except.ok finalURL) gen true false).1.status = 500) ∧
    (∀ (dom : String) (t : Table) (longURL finalURL gen : String), longURL ≠ "" →
      findByURL t (removeQueryParams finalURL) = none →
      (handleCreateShortURL dom t longURL (Except.ok finalURL) gen false true).1.status = 500) ∧
    (∀ (dom key : String) (t : Table) (path : String), trimPfx path "/api/delete/" ≠ "" →
      (handleDeleteShortURL dom key t path key true).1.status = 500) := by
  refine ⟨?_, ?_, ?_, ?_⟩
  · intro t path
    unfold handleShortURL
    dsimp only
    split
    · rfl
    · rfl
  · intro dom t longURL finalURL gen hl
    unfold handleCreateShortURL
    rw [if_neg hl]
    rfl
  · intro dom t longURL finalURL gen hl hfind
    unfold handleCreateShortURL
    rw [if_neg hl]
    dsimp only
    rw [hfind]
    rfl
  · intro dom key t path hcode
    unfold handleDeleteShortURL
    dsimp only
    rw [if_neg (fun h => h rfl), if_neg hcode]
    rfl

/-- Witness for C5 amended: concrete faulted requests on each endpoint. -/
theorem persistence_error_taxonomy_witness :
    handleShortURL [] "/x" true = httpNotFound ∧
    (handleCreateShortURL "d" [] "u" (Except.ok "http://e.com/") "g" true false).1.status = 500 ∧
    (handleCreateShortURL "d" [] "u" (Except.ok "http://e.com/") "g" false true).1.status = 500 ∧
    (handleDeleteShortURL "d" "k" [] "/api/delete/x" "k" true).1.status = 500 :=
  ⟨persistence_error_taxonomy.1 [] "/x",
   persistence_error_taxonomy.2.1 "d" [] "u" "http://e.com/" "g" (by decide),
   persistence_error_taxonomy.2.2.1 "d" [] "u" "http://e.com/" "g" (by decide) rfl,
   persistence_error_taxonomy.2.2.2 "d" "k" [] "/api/delete/x" (by decide)⟩

/-- C7: the resolver treats a probe status as a redirect exactly when it
lies in 300..399; on a redirect it returns the serialised parsed Location
header, failing when the header is absent or unparsable, and on any other
status it returns the input URL unchanged. The model consumes a single
probe response, so at most one redirect hop is ever resolved. -/
theorem getFinalURL_one_hop :
    (∀ s : Nat, isRedirect s = true ↔ (300 ≤ s ∧ s ≤ 399)) ∧
    (∀ url : String, getFinalURL url (Except.error ()) = Except.error ()) ∧
    (∀ (url : String) (resp : ProbeResp), isRedirect resp.statusCode = false →
      getFinalURL url (Except.ok resp) = Except.ok url) ∧
    (∀ (url : String) (resp : ProbeResp), isRedirect resp.statusCode = true →
      resp.locationHeader = none → getFinalURL url (Except.ok resp) = Except.error ()) ∧
    (∀ (url loc : String) (resp : ProbeResp), isRedirect resp.statusCode = true →
      resp.locationHeader = some loc → parseURL loc = none →
      getFinalURL url (Except.ok resp) = Except.error ()) ∧
    (∀ (url loc : String) (resp : ProbeResp) (u : GoURL), isRedirect resp.statusCode = true →
      resp.locationHeader = some loc → parseURL loc = some u →
      getFinalURL url (Except.ok resp) = Except.ok u.toString) := by
  refine ⟨?_, ?_, ?_, ?_, ?_, ?_⟩
  · intro s
    unfold isRedirect
    simp
  · intro url
    rfl
  · intro url resp h
    simp [getFinalURL, h]
  · intro url resp h hloc
    simp [getFinalURL, respLocation, h, hloc]
  · intro url loc resp h hloc hparse
    simp [getFinalURL, respLocation, h, hloc, hparse]
  · intro url loc resp u h hloc hparse
    simp [getFinalURL, respLocation, h, hloc, hparse]

/-- Witness for C7: a 302 with a parsable Location resolves to that target,
a 200 leaves the input unchanged, and a 302 with a missing or unparsable
Location fails. -/
theorem getFinalURL_one_hop_witness :
    isRedirect 302 = true ∧
    getFinalURL "http://a/" (Except.ok { statusCode := 200, locationHeader := some "http://target.example/" }) =
      Except.ok "http://a/" ∧
    getFinalURL "http://a/" (Except.ok { statusCode := 302, locationHeader := none }) =
      Except.error () ∧
    getFinalURL "http://a/" (Except.ok { statusCode := 302, locationHeader := some ":x" }) =
      Except.error () ∧
    getFinalURL "http://a/" (Except.ok { statusCode := 302, locationHeader := some "http://target.example/" }) =
      Except.ok "http://target.example/" :=
  ⟨(getFinalURL_one_hop.1 302).mpr (by decide),
   getFinalURL_one_hop.2.2.1 "http://a/"
     { statusCode := 200, locationHeader := some "http://target.example/" } (by decide),
   getFinalURL_one_hop.2.2.2.1 "http://a/"
     { statusCode := 302, locationHeader := none } (by decide) rfl,
   getFinalURL_one_hop.2.2.2.2.1 "http://a/" ":x"
     { statusCode := 302, locationHeader := some ":x" } (by decide) rfl rfl,
   getFinalURL_one_hop.2.2.2.2.2 "http://a/" "http://target.example/"
     { statusCode := 302, locationHeader := some "http://target.example/" }
     { scheme := "http", opq := "", host := "target.example", omitHost := false, path := "/",
       forceQuery := false, rawQuery := "", fragment := "" }
     (by decide) rfl (by decide)⟩

/-- C4 counterexample: in main.go the successful-insert branch of create
responds 200 with a plain-text body in which the domain and the code are
concatenated with no slash between them, so the body does not contain the
short URL in the form domain, slash, code, and it is not the JSON shape. -/
theorem create_response_shape_cex :
    (handleCreateShortURL "http://sho.rt" [] "http://e.com/a" (Except.ok "http://e.com/a")
        "abc" false false).1.status = 200 ∧
    (handleCreateShortURL "http://sho.rt" [] "http://e.com/a" (Except.ok "http://e.com/a")
        "abc" false false).1.body = "Short URL created: http://sho.rtabc\n" ∧
    ¬ List.IsInfix ("http://sho.rt/abc".data)
        ((handleCreateShortURL "http://sho.rt" [] "http://e.com/a" (Except.ok "http://e.com/a")
            "abc" false false).1.body.data) :=
  ⟨rfl, rfl, by decide⟩

/-- C10: removeQueryParams is total and falls back to the identity when the
input does not parse as a URL, so creation never fails at the
query-stripping step and an unparsable resolved URL is stored verbatim,
including any query string it contains. -/
theorem removeQuery_parse_fallback (s : String) (hs : parseURL s = none) :
    removeQueryParams s = s ∧
    (∀ (dom : String) (t : Table) (longURL g : String), longURL ≠ "" →
      findByURL t s = none → t.any (fun r => r.shortCode == g) = false →
      handleCreateShortURL dom t longURL (Except.ok s) g false false =
        ({ status := 200, body := "Short URL created: " ++ (dom ++ g) ++ "\n", location := none },
         t ++ [{ shortCode := g, longUrl := s }])) := by
  have h1 : removeQueryParams s = s := by
    unfold removeQueryParams
    rw [hs]
  refine ⟨h1, ?_⟩
  intro dom t longURL g hl hfind hany
  rw [create_eq dom t longURL s g hl, h1, hfind]
  simp only [insertRow, hany]
  rfl

/-- Witness for C10: the string ":x" fails to parse (missing protocol
scheme), is returned unchanged by the normaliser, and is stored verbatim. -/
theorem removeQuery_parse_fallback_witness :
    parseURL ":x" = none ∧
    removeQueryParams ":x" = ":x" ∧
    ("u" : String) ≠ "" ∧
    handleCreateShortURL "http://sho.rt" [] "u" (Except.ok ":x") "abc" false false =
      ({ status := 200, body := "Short URL created: " ++ ("http://sho.rt" ++ "abc") ++ "\n",
         location := none },
       [] ++ [{ shortCode := "abc", longUrl := ":x" }]) :=
  ⟨by decide, (removeQuery_parse_fallback ":x" (by decide)).1, by decide,
   (removeQuery_parse_fallback ":x" (by decide)).2 "http://sho.rt" [] "u" "abc"
     (by decide) rfl rfl⟩

/-- C6: on every string the parser accepts, removeQueryParams returns the
serialisation of the parsed URL with only the query component cleared, the
scheme, host, path and fragment components unchanged; consequently two
parsable URLs that agree on every component except the query normalise
identically, and creating both (with no redirect involved) from the empty
table leaves exactly one row whose longURL is the query-free URL. -/
theorem removeQuery_normalization (s : String) (u : GoURL) (hs : parseURL s = some u) :
    removeQueryParams s = GoURL.toString { u with rawQuery := "" } ∧
    (∀ (s2 : String) (u2 : GoURL), parseURL s2 = some u2 → sameButQuery u2 u →
      removeQueryParams s2 = removeQueryParams s) ∧
    (∀ (dom g1 g2 s2 : String) (u2 : GoURL), parseURL s2 = some u2 → sameButQuery u2 u →
      s ≠ "" → s2 ≠ "" →
      (handleCreateShortURL dom
          (handleCreateShortURL dom ([] : Table) s (Except.ok s) g1 false false).2
          s2 (Except.ok s2) g2 false false).2 =
        [{ shortCode := g1, longUrl := GoURL.toString { u with rawQuery := "" } }]) := by
  have h1 : removeQueryParams s = GoURL.toString { u with rawQuery := "" } := by
    unfold removeQueryParams
    rw [hs]
  have h2 : ∀ (s2 : String) (u2 : GoURL), parseURL s2 = some u2 → sameButQuery u2 u →
      removeQueryParams s2 = removeQueryParams s := by
    intro s2 u2 hp hsame
    unfold removeQueryParams
    rw [hp, hs]
    dsimp only
    rw [clearQuery_eq_of_sameButQuery hsame]
  refine ⟨h1, h2, ?_⟩
  intro dom g1 g2 s2 u2 hp hsame hs1 hs2
  have e1 : (handleCreateShortURL dom ([] : Table) s (Except.ok s) g1 false false).2 =
      [{ shortCode := g1, longUrl := removeQueryParams s }] := by
    rw [create_eq dom [] s s g1 hs1]
    rfl
  rw [e1, create_eq dom _ s2 s2 g2 hs2, h2 s2 u2 hp hsame]
  have hfind : findByURL [{ shortCode := g1, longUrl := removeQueryParams s }]
      (removeQueryParams s) = some { shortCode := g1, longUrl := removeQueryParams s } := by
    simp [findByURL]
  rw [hfind]
  dsimp only
  rw [h1]

/-- Witness for C6: the two query variants of the same page normalise to the
query-free URL and deduplicate to a single stored row. -/
theorem removeQuery_normalization_witness :
    parseURL "http://example.com/page?x=1" =
      some { scheme := "http", opq := "", host := "example.com", omitHost := false, path := "/page", forceQuery := false, rawQuery := "x=1", fragment := "" } ∧
    removeQueryParams "http://example.com/page?x=1" = "http://example.com/page" ∧
    removeQueryParams "http://example.com/page?y=2" =
      removeQueryParams "http://example.com/page?x=1" ∧
    (handleCreateShortURL "http://sho.rt"
        (handleCreateShortURL "http://sho.rt" ([] : Table) "http://example.com/page?x=1"
          (Except.ok "http://example.com/page?x=1") "abc" false false).2
        "http://example.com/page?y=2" (Except.ok "http://example.com/page?y=2")
        "xyz" false false).2 =
      [{ shortCode := "abc", longUrl := "http://example.com/page" }] := by
  have h := removeQuery_normalization "http://example.com/page?x=1"
    { scheme := "http", opq := "", host := "example.com", omitHost := false, path := "/page", forceQuery := false, rawQuery := "x=1", fragment := "" }
    (by decide)
  exact ⟨by decide, h.1,
    h.2.1 "http://example.com/page?y=2"
      { scheme := "http", opq := "", host := "example.com", omitHost := false, path := "/page", forceQuery := false, rawQuery := "y=2", fragment := "" }
      (by decide) ⟨rfl, rfl, rfl, rfl, rfl, rfl, rfl⟩,
    h.2.2 "http://sho.rt" "abc" "xyz" "http://example.com/page?y=2"
      { scheme := "http", opq := "", host := "example.com", omitHost := false, path := "/page", forceQuery := false, rawQuery := "y=2", fragment := "" }
      (by decide) ⟨rfl, rfl, rfl, rfl, rfl, rfl, rfl⟩ (by decide) (by decide)⟩

/-- C4 corrected: when a create request reaches the persistence step with no
faults, both the found-existing and the successful-insert branch respond
200 in both source variants, but only the part_000 variant emits a JSON
body with the short URL in the form domain, slash, code; the main.go
handler emits a plain-text message in which the domain and the code are
concatenated directly, with no slash separator. -/
theorem create_response_shape_amended (dom : String) (t : Table)
    (longURL finalURL gen : String)
    (h200 : (handleCreateShortURL dom t longURL (Except.ok finalURL) gen false false).1.status = 200) :
    ∃ c : String,
      ((handleCreateShortURL dom t longURL (Except.ok finalURL) gen false false).1.body =
          "Short URL already exists: " ++ (dom ++ c) ++ "\n" ∨
        (handleCreateShortURL dom t longURL (Except.ok finalURL) gen false false).1.body =
          "Short URL created: " ++ (dom ++ c) ++ "\n") ∧
      (handleCreateShortURLv2 dom t longURL (Except.ok finalURL) gen false false).1.status = 200 ∧
      (handleCreateShortURLv2 dom t longURL (Except.ok finalURL) gen false false).1.body =
        "\x7b\"short_url\": \"" ++ (dom ++ "/" ++ c) ++ "\"\x7d" := by
  have hl : longURL ≠ "" := by
    intro h
    rw [h] at h200
    simp [handleCreateShortURL, httpError] at h200
  rw [create_eq dom t longURL finalURL gen hl] at h200 ⊢
  rw [create2_eq dom t longURL finalURL gen hl]
  cases hfind : findByURL t (removeQueryParams finalURL) with
  | some r =>
    exact ⟨r.shortCode, Or.inl rfl, rfl, rfl⟩
  | none =>
    rw [hfind] at h200
    cases hins : insertRow t gen (removeQueryParams finalURL) with
    | none =>
      rw [hins] at h200
      simp [httpError] at h200
    | some t2 =>
      exact ⟨gen, Or.inr rfl, rfl, rfl⟩

/-- Witness for C4 amended: a concrete successful insert, showing the two
body shapes side by side. -/
theorem create_response_shape_amended_witness :
    (handleCreateShortURL "http://sho.rt" [] "http://e.com/a" (Except.ok "http://e.com/a")
        "abc" false false).1.status = 200 ∧
    ∃ c : String,
      ((handleCreateShortURL "http://sho.rt" [] "http://e.com/a" (Except.ok "http://e.com/a")
          "abc" false false).1.body = "Short URL already exists: " ++ ("http://sho.rt" ++ c) ++ "\n" ∨
        (handleCreateShortURL "http://sho.rt" [] "http://e.com/a" (Except.ok "http://e.com/a")
          "abc" false false).1.body = "Short URL created: " ++ ("http://sho.rt" ++ c) ++ "\n") ∧
      (handleCreateShortURLv2 "http://sho.rt" [] "http://e.com/a" (Except.ok "http://e.com/a")
          "abc" false false).1.status = 200 ∧
      (handleCreateShortURLv2 "http://sho.rt" [] "http://e.com/a" (Except.ok "http://e.com/a")
          "abc" false false).1.body =
        "\x7b\"short_url\": \"" ++ ("http://sho.rt" ++ "/" ++ c) ++ "\"\x7d" :=
  ⟨rfl, create_response_shape_amended "http://sho.rt" [] "http://e.com/a" "http://e.com/a" "abc" rfl⟩

/-- C1: from any table satisfying the longURL-uniqueness invariant (which
holds in every reachable state by the C3 theorem), two consecutive create
requests for the same canonical URL, the first of which succeeds, respond
with the same short URL both times, and afterwards the table holds exactly
one row whose longURL is that canonical URL. -/
theorem create_idempotent (dom : String) (t : Table) (longURL finalURL g1 g2 : String)
    (hinv : (t.filter (fun r => r.longUrl == removeQueryParams finalURL)).length ≤ 1)
    (h200 : (handleCreateShortURL dom t longURL (Except.ok finalURL) g1 false false).1.status = 200) :
    ∃ c : String,
      ((handleCreateShortURL dom t longURL (Except.ok finalURL) g1 false false).1.body =
          "Short URL created: " ++ (dom ++ c) ++ "\n" ∨
        (handleCreateShortURL dom t longURL (Except.ok finalURL) g1 false false).1.body =
          "Short URL already exists: " ++ (dom ++ c) ++ "\n") ∧
      (handleCreateShortURL dom
          (handleCreateShortURL dom t longURL (Except.ok finalURL) g1 false false).2
          longURL (Except.ok finalURL) g2 false false).1.status = 200 ∧
      (handleCreateShortURL dom
          (handleCreateShortURL dom t longURL (Except.ok finalURL) g1 false false).2
          longURL (Except.ok finalURL) g2 false false).1.body =
        "Short URL already exists: " ++ (dom ++ c) ++ "\n" ∧
      (((handleCreateShortURL dom
            (handleCreateShortURL dom t longURL (Except.ok finalURL) g1 false false).2
            longURL (Except.ok finalURL) g2 false false).2).filter
          (fun r => r.longUrl == removeQueryParams finalURL)).length = 1 := by
  have hl : longURL ≠ "" := by
    intro h
    rw [h] at h200
    simp [handleCreateShortURL, httpError] at h200
  rw [create_eq dom t longURL finalURL g1 hl] at h200 ⊢
  cases hfind : findByURL t (removeQueryParams finalURL) with
  | some r =>
    dsimp only
    rw [create_eq dom t longURL finalURL g2 hl, hfind]
    refine ⟨r.shortCode, Or.inr rfl, rfl, rfl, ?_⟩
    exact filter_len_one_of_mem (f := fun r => r.longUrl) hinv
      (List.mem_of_find?_eq_some hfind) (by simpa using List.find?_some hfind)
  | none =>
    rw [hfind] at h200
    cases hins : insertRow t g1 (removeQueryParams finalURL) with
    | none =>
      rw [hins] at h200
      simp [httpError] at h200
    | some t2 =>
      obtain ⟨hany, ht2⟩ := insertRow_some hins
      dsimp only
      rw [create_eq dom t2 longURL finalURL g2 hl]
      have hfind2 : findByURL t2 (removeQueryParams finalURL) =
          some { shortCode := g1, longUrl := removeQueryParams finalURL } := by
        rw [ht2]
        have hfind' : t.find? (fun r => r.longUrl == removeQueryParams finalURL) = none := hfind
        unfold findByURL
        rw [List.find?_append, hfind']
        simp [List.find?]
      rw [hfind2]
      refine ⟨g1, Or.inl rfl, rfl, rfl, ?_⟩
      dsimp only
      rw [ht2, List.filter_append]
      have hnil : t.filter (fun r => r.longUrl == removeQueryParams finalURL) = [] := by
        rw [List.filter_eq_nil_iff]
        intro x hx
        simpa using findByURL_none hfind x hx
      rw [hnil]
      simp

/-- Witness for C1: two consecutive creations of the same page from the
empty table. -/
theorem create_idempotent_witness :
    (([] : Table).filter
        (fun r => r.longUrl == removeQueryParams "http://example.com/page?x=1")).length ≤ 1 ∧
    (handleCreateShortURL "http://sho.rt" [] "http://example.com/page?x=1"
        (Except.ok "http://example.com/page?x=1") "abc" false false).1.status = 200 ∧
    ∃ c : String,
      ((handleCreateShortURL "http://sho.rt" [] "http://example.com/page?x=1"
            (Except.ok "http://example.com/page?x=1") "abc" false false).1.body =
          "Short URL created: " ++ ("http://sho.rt" ++ c) ++ "\n" ∨
        (handleCreateShortURL "http://sho.rt" [] "http://example.com/page?x=1"
            (Except.ok "http://example.com/page?x=1") "abc" false false).1.body =
          "Short URL already exists: " ++ ("http://sho.rt" ++ c) ++ "\n") ∧
      (handleCreateShortURL "http://sho.rt"
          (handleCreateShortURL "http://sho.rt" [] "http://example.com/page?x=1"
            (Except.ok "http://example.com/page?x=1") "abc" false false).2
          "http://example.com/page?x=1" (Except.ok "http://example.com/page?x=1")
          "xyz" false false).1.status = 200 ∧
      (handleCreateShortURL "http://sho.rt"
          (handleCreateShortURL "http://sho.rt" [] "http://example.com/page?x=1"
            (Except.ok "http://example.com/page?x=1") "abc" false false).2
          "http://example.com/page?x=1" (Except.ok "http://example.com/page?x=1")
          "xyz" false false).1.body =
        "Short URL already exists: " ++ ("http://sho.rt" ++ c) ++ "\n" ∧
      (((handleCreateShortURL "http://sho.rt"
            (handleCreateShortURL "http://sho.rt" [] "http://example.com/page?x=1"
              (Except.ok "http://example.com/page?x=1") "abc" false false).2
            "http://example.com/page?x=1" (Except.ok "http://example.com/page?x=1")
            "xyz" false false).2).filter
          (fun r => r.longUrl == removeQueryParams "http://example.com/page?x=1")).length = 1 :=
  ⟨by decide, rfl,
   create_idempotent "http://sho.rt" [] "http://example.com/page?x=1"
     "http://example.com/page?x=1" "abc" "xyz" (by decide) rfl⟩

/-- C2: after a successful create request with no faults, on a table whose
short codes are unique (the datastore constraint) and nonempty (they are
generator outputs), a GET for the produced short code redirects with 301
to exactly the stored longURL of the unique row carrying that code. -/
theorem create_roundtrip (dom : String) (t : Table) (longURL finalURL g : String)
    (hnodup : (t.map (fun r => r.shortCode)).Nodup)
    (hne : ∀ r ∈ t, r.shortCode ≠ "")
    (hg : g ≠ "")
    (h200 : (handleCreateShortURL dom t longURL (Except.ok finalURL) g false false).1.status = 200) :
    ∃ r : Row,
      r ∈ (handleCreateShortURL dom t longURL (Except.ok finalURL) g false false).2 ∧
      r.shortCode = createdCode t finalURL g ∧
      (∀ x ∈ (handleCreateShortURL dom t longURL (Except.ok finalURL) g false false).2,
        x.shortCode = createdCode t finalURL g → x = r) ∧
      handleShortURL (handleCreateShortURL dom t longURL (Except.ok finalURL) g false false).2
          ("/" ++ createdCode t finalURL g) false =
        { status := 301, body := "", location := some r.longUrl } := by
  have hl : longURL ≠ "" := by
    intro h
    rw [h] at h200
    simp [handleCreateShortURL, httpError] at h200
  rw [create_eq dom t longURL finalURL g hl] at h200 ⊢
  unfold createdCode
  cases hfind : findByURL t (removeQueryParams finalURL) with
  | some r0 =>
    dsimp only
    have hr0mem : r0 ∈ t := List.mem_of_find?_eq_some hfind
    have hr0ne : r0.shortCode ≠ "" := hne r0 hr0mem
    cases hfc : findByCode t r0.shortCode with
    | none =>
      exact absurd rfl (findByCode_none hfc r0 hr0mem)
    | some r1 =>
      have hr1mem : r1 ∈ t := List.mem_of_find?_eq_some hfc
      have hr1code : r1.shortCode = r0.shortCode := by simpa using List.find?_some hfc
      refine ⟨r1, hr1mem, hr1code, ?_, ?_⟩
      · intro x hx hxc
        exact List.inj_on_of_nodup_map hnodup hx hr1mem (by rw [hxc, hr1code])
      · unfold handleShortURL
        dsimp only
        rw [trimPfx_slash, if_neg hr0ne, hfc]
        rfl
  | none =>
    rw [hfind] at h200
    dsimp only
    cases hins : insertRow t g (removeQueryParams finalURL) with
    | none =>
      rw [hins] at h200
      simp [httpError] at h200
    | some t2 =>
      obtain ⟨hany, ht2⟩ := insertRow_some hins
      have hnotin : ∀ x ∈ t, x.shortCode ≠ g := by
        intro x hx
        have := List.any_eq_false.mp hany x hx
        simpa using this
      refine ⟨{ shortCode := g, longUrl := removeQueryParams finalURL }, ?_, rfl, ?_, ?_⟩
      · rw [ht2]
        exact List.mem_append_right _ (List.mem_singleton_self _)
      · intro x hx hxc
        rw [ht2] at hx
        rcases List.mem_append.mp hx with hx1 | hx2
        · exact absurd hxc (hnotin x hx1)
        · simpa using hx2
      · unfold handleShortURL
        dsimp only
        rw [trimPfx_slash, if_neg hg]
        have hfc2 : findByCode t2 g =
            some { shortCode := g, longUrl := removeQueryParams finalURL } := by
          rw [ht2]
          have hfind' : t.find? (fun r => r.shortCode == g) = none :=
            List.find?_eq_none.mpr (fun x hx => by simpa using hnotin x hx)
          unfold findByCode
          rw [List.find?_append, hfind']
          simp [List.find?]
        rw [hfc2]
        rfl

/-- Witness for C2: creating a page on the empty table and fetching the
produced code redirects to the stored canonical URL. -/
theorem create_roundtrip_witness :
    (([] : Table).map (fun r => r.shortCode)).Nodup ∧
    ("abc" : String) ≠ "" ∧
    (handleCreateShortURL "http://sho.rt" [] "http://e.com/a" (Except.ok "http://e.com/a")
        "abc" false false).1.status = 200 ∧
    ∃ r : Row,
      r ∈ (handleCreateShortURL "http://sho.rt" [] "http://e.com/a" (Except.ok "http://e.com/a")
          "abc" false false).2 ∧
      r.shortCode = createdCode [] "http://e.com/a" "abc" ∧
      (∀ x ∈ (handleCreateShortURL "http://sho.rt" [] "http://e.com/a" (Except.ok "http://e.com/a")
          "abc" false false).2,
        x.shortCode = createdCode [] "http://e.com/a" "abc" → x = r) ∧
      handleShortURL (handleCreateShortURL "http://sho.rt" [] "http://e.com/a"
            (Except.ok "http://e.com/a") "abc" false false).2
          ("/" ++ createdCode [] "http://e.com/a" "abc") false =
        { status := 301, body := "", location := some r.longUrl } :=
  ⟨by decide, by decide, rfl,
   create_roundtrip "http://sho.rt" [] "http://e.com/a" "http://e.com/a" "abc"
     (by decide) (fun r hr => absurd hr (List.not_mem_nil r)) (by decide) rfl⟩

/-- C9: an authorized delete of a nonempty code always responds 200: when
the code is absent the table is unchanged and no NotFound is signalled,
and when a row carries the code exactly that row is removed. -/
theorem delete_semantics (dom key : String) (t : Table) (path : String)
    (hcode : trimPfx path "/api/delete/" ≠ "")
    (hnodup : (t.map (fun r => r.shortCode)).Nodup) :
    (handleDeleteShortURL dom key t path key false).1.status = 200 ∧
    (handleDeleteShortURL dom key t path key false).2 =
      deleteByCode t (trimPfx path "/api/delete/") ∧
    (findByCode t (trimPfx path "/api/delete/") = none →
      (handleDeleteShortURL dom key t path key false).2 = t) ∧
    (∀ r ∈ t, r.shortCode = trimPfx path "/api/delete/" →
      r ∉ (handleDeleteShortURL dom key t path key false).2 ∧
      (∀ x ∈ t, x.shortCode ≠ trimPfx path "/api/delete/" →
        x ∈ (handleDeleteShortURL dom key t path key false).2) ∧
      (∀ x ∈ (handleDeleteShortURL dom key t path key false).2,
        x ∈ t ∧ x.shortCode ≠ trimPfx path "/api/delete/") ∧
      (handleDeleteShortURL dom key t path key false).2.length + 1 = t.length) := by
  have hrun : handleDeleteShortURL dom key t path key false =
      ({ status := 200,
         body := "Short URL deleted: " ++ (dom ++ trimPfx path "/api/delete/") ++ "\n",
         location := none },
       deleteByCode t (trimPfx path "/api/delete/")) := by
    unfold handleDeleteShortURL
    dsimp only
    rw [if_neg (fun h => h rfl), if_neg hcode]
    rfl
  rw [hrun]
  dsimp only
  simp only [deleteByCode]
  refine ⟨by trivial, by trivial, ?_, ?_⟩
  · intro hnone
    apply List.filter_eq_self.mpr
    intro a ha
    have := findByCode_none hnone a ha
    simp [this]
  · intro r hr hrc
    have hcount1 : (t.filter (fun x => x.shortCode == trimPfx path "/api/delete/")).length = 1 :=
      filter_len_one_of_mem (f := fun x => x.shortCode)
        (filter_len_le_one (f := fun x => x.shortCode) hnodup _) hr hrc
    have hlen := length_filter_not_add (fun x => x.shortCode == trimPfx path "/api/delete/") t
    refine ⟨?_, ?_, ?_, ?_⟩
    · intro hmem
      have := (List.mem_filter.mp hmem).2
      simp [hrc] at this
    · intro x hx hxc
      exact List.mem_filter.mpr ⟨hx, by simp [hxc]⟩
    · intro x hx
      have h2 := List.mem_filter.mp hx
      refine ⟨h2.1, ?_⟩
      intro heq
      have := h2.2
      simp [heq] at this
    · omega

/-- Witness for C9: an authorized delete of a present code removes the row
and answers 200. -/
theorem delete_semantics_witness :
    trimPfx "/api/delete/abc" "/api/delete/" ≠ "" ∧
    (([{ shortCode := "abc", longUrl := "http://t/" }] : Table).map
        (fun r => r.shortCode)).Nodup ∧
    (handleDeleteShortURL "d" "k" [{ shortCode := "abc", longUrl := "http://t/" }]
        "/api/delete/abc" "k" false).1.status = 200 ∧
    (handleDeleteShortURL "d" "k" [{ shortCode := "abc", longUrl := "http://t/" }]
        "/api/delete/abc" "k" false).2 = [] :=
  ⟨by decide, by decide,
   (delete_semantics "d" "k" [{ shortCode := "abc", longUrl := "http://t/" }]
     "/api/delete/abc" (by decide) (by decide)).1,
   rfl⟩

end Shorter
